import Mathlib

/-!
Shallow embedding of the Mathieu-function dispatch layer of xsf
(`include/xsf/mathieu.h`) and of the golden-table validation harness
(`tests/test_hyp2f1.cpp`, `tests/scipy_special_tests/test_chdtr.cpp`).

Modelling conventions:
* machine reals (`T`, instantiated at `double`) are modelled as `ℚ`;
  the quiet-NaN sentinel is modelled by `Option ℚ` with `none` playing
  the role of NaN (ℚ has no NaN value);
* the process-wide error channel written by `set_error` is modelled by
  explicit state passing: every evaluator takes the current channel
  contents (a list of records) and returns the updated contents;
* the lower-level specfun routines `cva2`, `mtu0` and `mtu12`
  (declared in `specfun/specfun.h`, whose body is not part of the
  sources) are abstract parameters of the evaluators: every theorem
  below quantifies over them.
-/

namespace Xsf

/-- The error classifications used by the Mathieu wrappers
(`SF_ERROR_DOMAIN`, `SF_ERROR_MEMORY`, `SF_ERROR_OTHER`). -/
inductive SfErrorKind where
  | domain
  | memory
  | other
  deriving DecidableEq

/-- One record written to the error channel by `set_error`:
the function-name string and the error classification.  The optional
message argument is always `NULL` in `mathieu.h` and is omitted. -/
structure ErrEntry where
  name : String
  kind : SfErrorKind
  deriving DecidableEq

/-- The state of the process-wide error channel: the list of records
written so far, oldest first. -/
abbrev ErrState := List ErrEntry

/-- Model of `set_error(name, kind, NULL)`: appends one record to the channel. -/
def set_error (name : String) (kind : SfErrorKind) (σ : ErrState) : ErrState :=
  σ ++ [⟨name, kind⟩]

/-- A machine value of type `T`: `none` models the quiet-NaN sentinel,
`some v` an ordinary value. -/
abbrev Val := Option ℚ

/-- Multiplication of a NaN-aware value by a finite scalar, as in
`csf = sgn * f`: NaN is absorbing. -/
def vmul (c : ℚ) : Val → Val
  | none => none
  | some v => some (c * v)

/-- The status codes returned by the specfun routines
(`specfun::Status`): `OK`, `NoMemory` and any other failure. -/
inductive Status where
  | OK
  | NoMemory
  | Other
  deriving DecidableEq

mutual

/-- Characteristic values: `xsf::cem_cva` from `mathieu.h`.
`cva2` is the abstract lower-level routine `specfun::cva2(kd, int_m, q)`. -/
def cem_cva (cva2 : ℤ → ℤ → ℚ → Val) (m q : ℚ) (σ : ErrState) :
    Val × ErrState :=
  if m < 0 ∨ m ≠ (⌊m⌋ : ℚ) then
    (none, set_error "mathieu_a" SfErrorKind.domain σ)
  else if h : q < 0 then
    if ⌊m⌋ % 2 = 0 then cem_cva cva2 m (-q) σ
    else sem_cva cva2 m (-q) σ
  else
    (cva2 (if ⌊m⌋ % 2 = 0 then 1 else 2) ⌊m⌋ q, σ)
termination_by (if q < 0 then 1 else 0)
decreasing_by
  all_goals
    simp only [h, if_pos]
    have h2 : ¬(-q < 0) := by linarith
    simp [h2]

/-- Characteristic values: `xsf::sem_cva` from `mathieu.h`. -/
def sem_cva (cva2 : ℤ → ℤ → ℚ → Val) (m q : ℚ) (σ : ErrState) :
    Val × ErrState :=
  if m ≤ 0 ∨ m ≠ (⌊m⌋ : ℚ) then
    (none, set_error "mathieu_b" SfErrorKind.domain σ)
  else if h : q < 0 then
    if ⌊m⌋ % 2 = 0 then sem_cva cva2 m (-q) σ
    else cem_cva cva2 m (-q) σ
  else
    (cva2 (if ⌊m⌋ % 2 = 0 then 4 else 3) ⌊m⌋ q, σ)
termination_by (if q < 0 then 1 else 0)
decreasing_by
  all_goals
    simp only [h, if_pos]
    have h2 : ¬(-q < 0) := by linarith
    simp [h2]

end

/-- The shared tail of `cem` and `sem` on the non-negative-`q` path:
`mtu0(kf, int_m, q, x, &csf, &csd)` followed by the status check that
overwrites both outputs with NaN and classifies the error
(`SF_ERROR_MEMORY` for `NoMemory`, `SF_ERROR_OTHER` otherwise). -/
def mtu0Branch (mtu0 : ℤ → ℤ → ℚ → ℚ → Status × Val × Val)
    (name : String) (kf im : ℤ) (q x : ℚ) (σ : ErrState) :
    (Val × Val) × ErrState :=
  let r := mtu0 kf im q x
  if r.1 = Status.OK then ((r.2.1, r.2.2), σ)
  else
    ((none, none),
      set_error name
        (if r.1 = Status.NoMemory then SfErrorKind.memory else SfErrorKind.other) σ)

mutual

/-- Angular Mathieu function of the first kind with its derivative:
`xsf::cem` from `mathieu.h` (outputs `csf`, `csd`).  `mtu0` is the
abstract routine `specfun::mtu0(kf, int_m, q, x, &csf, &csd)`, modelled
as returning the status together with the two outputs. -/
def cem (mtu0 : ℤ → ℤ → ℚ → ℚ → Status × Val × Val) (m q x : ℚ)
    (σ : ErrState) : (Val × Val) × ErrState :=
  if m < 0 ∨ m ≠ (⌊m⌋ : ℚ) then
    ((none, none), set_error "mathieu_cem" SfErrorKind.domain σ)
  else if h : q < 0 then
    if ⌊m⌋ % 2 = 0 then
      let sgn : ℚ := if (⌊m⌋ / 2) % 2 = 0 then 1 else -1
      let r := cem mtu0 m (-q) (90 - x) σ
      ((vmul sgn r.1.1, vmul (-sgn) r.1.2), r.2)
    else
      let sgn : ℚ := if (⌊m⌋ / 2) % 2 = 0 then 1 else -1
      let r := sem mtu0 m (-q) (90 - x) σ
      ((vmul sgn r.1.1, vmul (-sgn) r.1.2), r.2)
  else
    mtu0Branch mtu0 "mathieu_cem" 1 ⌊m⌋ q x σ
termination_by (if q < 0 then 1 else 0)
decreasing_by
  all_goals
    simp only [h, if_pos]
    have h2 : ¬(-q < 0) := by linarith
    simp [h2]

/-- Angular Mathieu function of the second kind with its derivative:
`xsf::sem` from `mathieu.h` (outputs `csf`, `csd`). -/
def sem (mtu0 : ℤ → ℤ → ℚ → ℚ → Status × Val × Val) (m q x : ℚ)
    (σ : ErrState) : (Val × Val) × ErrState :=
  if m < 0 ∨ m ≠ (⌊m⌋ : ℚ) then
    ((none, none), set_error "mathieu_sem" SfErrorKind.domain σ)
  else if ⌊m⌋ = 0 then
    ((some 0, some 0), σ)
  else if h : q < 0 then
    if ⌊m⌋ % 2 = 0 then
      let sgn : ℚ := if (⌊m⌋ / 2) % 2 = 0 then -1 else 1
      let r := sem mtu0 m (-q) (90 - x) σ
      ((vmul sgn r.1.1, vmul (-sgn) r.1.2), r.2)
    else
      let sgn : ℚ := if (⌊m⌋ / 2) % 2 = 0 then 1 else -1
      let r := cem mtu0 m (-q) (90 - x) σ
      ((vmul sgn r.1.1, vmul (-sgn) r.1.2), r.2)
  else
    mtu0Branch mtu0 "mathieu_sem" 2 ⌊m⌋ q x σ
termination_by (if q < 0 then 1 else 0)
decreasing_by
  all_goals
    simp only [h, if_pos]
    have h2 : ¬(-q < 0) := by linarith
    simp [h2]

end

/-- Non-recursive closed form of `cem_cva`: the reflection branch for
negative `q` is replaced by the body of the (necessarily non-recursive)
reflected call.  Used to express that the mutual recursion has depth at
most one. -/
def cemCvaClosed (cva2 : ℤ → ℤ → ℚ → Val) (m q : ℚ) (σ : ErrState) :
    Val × ErrState :=
  if m < 0 ∨ m ≠ (⌊m⌋ : ℚ) then
    (none, set_error "mathieu_a" SfErrorKind.domain σ)
  else if q < 0 then
    if ⌊m⌋ % 2 = 0 then (cva2 1 ⌊m⌋ (-q), σ)
    else (cva2 3 ⌊m⌋ (-q), σ)
  else
    (cva2 (if ⌊m⌋ % 2 = 0 then 1 else 2) ⌊m⌋ q, σ)

/-- Non-recursive closed form of `sem_cva`. -/
def semCvaClosed (cva2 : ℤ → ℤ → ℚ → Val) (m q : ℚ) (σ : ErrState) :
    Val × ErrState :=
  if m ≤ 0 ∨ m ≠ (⌊m⌋ : ℚ) then
    (none, set_error "mathieu_b" SfErrorKind.domain σ)
  else if q < 0 then
    if ⌊m⌋ % 2 = 0 then (cva2 4 ⌊m⌋ (-q), σ)
    else (cva2 2 ⌊m⌋ (-q), σ)
  else
    (cva2 (if ⌊m⌋ % 2 = 0 then 4 else 3) ⌊m⌋ q, σ)

/-- Non-recursive closed form of `cem`. -/
def cemClosed (mtu0 : ℤ → ℤ → ℚ → ℚ → Status × Val × Val) (m q x : ℚ)
    (σ : ErrState) : (Val × Val) × ErrState :=
  if m < 0 ∨ m ≠ (⌊m⌋ : ℚ) then
    ((none, none), set_error "mathieu_cem" SfErrorKind.domain σ)
  else if q < 0 then
    if ⌊m⌋ % 2 = 0 then
      let sgn : ℚ := if (⌊m⌋ / 2) % 2 = 0 then 1 else -1
      let r := mtu0Branch mtu0 "mathieu_cem" 1 ⌊m⌋ (-q) (90 - x) σ
      ((vmul sgn r.1.1, vmul (-sgn) r.1.2), r.2)
    else
      let sgn : ℚ := if (⌊m⌋ / 2) % 2 = 0 then 1 else -1
      let r := mtu0Branch mtu0 "mathieu_sem" 2 ⌊m⌋ (-q) (90 - x) σ
      ((vmul sgn r.1.1, vmul (-sgn) r.1.2), r.2)
  else
    mtu0Branch mtu0 "mathieu_cem" 1 ⌊m⌋ q x σ

/-- Non-recursive closed form of `sem`. -/
def semClosed (mtu0 : ℤ → ℤ → ℚ → ℚ → Status × Val × Val) (m q x : ℚ)
    (σ : ErrState) : (Val × Val) × ErrState :=
  if m < 0 ∨ m ≠ (⌊m⌋ : ℚ) then
    ((none, none), set_error "mathieu_sem" SfErrorKind.domain σ)
  else if ⌊m⌋ = 0 then
    ((some 0, some 0), σ)
  else if q < 0 then
    if ⌊m⌋ % 2 = 0 then
      let sgn : ℚ := if (⌊m⌋ / 2) % 2 = 0 then -1 else 1
      let r := mtu0Branch mtu0 "mathieu_sem" 2 ⌊m⌋ (-q) (90 - x) σ
      ((vmul sgn r.1.1, vmul (-sgn) r.1.2), r.2)
    else
      let sgn : ℚ := if (⌊m⌋ / 2) % 2 = 0 then 1 else -1
      let r := mtu0Branch mtu0 "mathieu_cem" 1 ⌊m⌋ (-q) (90 - x) σ
      ((vmul sgn r.1.1, vmul (-sgn) r.1.2), r.2)
  else
    mtu0Branch mtu0 "mathieu_sem" 2 ⌊m⌋ q x σ

/-- A non-negative integer order stays clear of the odd-kind domain
check once its parity is odd: an odd non-negative integer is at least
one. -/
theorem one_le_of_odd_order (m : ℚ) (h0 : 0 ≤ m) (hint : m = (⌊m⌋ : ℚ))
    (hodd : ¬ ⌊m⌋ % 2 = 0) : (1 : ℚ) ≤ m := by
  have hf0 : 0 ≤ ⌊m⌋ := Int.floor_nonneg.mpr h0
  have h1 : 1 ≤ ⌊m⌋ := by omega
  rw [hint]
  exact_mod_cast h1

/-- Evaluating `cem_cva` on a non-negative coupling parameter: no recursion, one
`cva2` call with `kd` set from the order parity. -/
theorem cem_cva_nonneg_q (cva2 : ℤ → ℤ → ℚ → Val) (m q : ℚ) (σ : ErrState)
    (h0 : 0 ≤ m) (hint : m = (⌊m⌋ : ℚ)) (hq : ¬ q < 0) :
    cem_cva cva2 m q σ = (cva2 (if ⌊m⌋ % 2 = 0 then 1 else 2) ⌊m⌋ q, σ) := by
  rw [cem_cva, if_neg (by push_neg; exact ⟨h0, hint⟩), dif_neg hq]

/-- Evaluating `sem_cva` on a non-negative coupling parameter: no recursion, one
`cva2` call with `kd` set from the order parity. -/
theorem sem_cva_nonneg_q (cva2 : ℤ → ℤ → ℚ → Val) (m q : ℚ) (σ : ErrState)
    (h0 : 0 < m) (hint : m = (⌊m⌋ : ℚ)) (hq : ¬ q < 0) :
    sem_cva cva2 m q σ = (cva2 (if ⌊m⌋ % 2 = 0 then 4 else 3) ⌊m⌋ q, σ) := by
  rw [sem_cva, if_neg (by push_neg; exact ⟨h0, hint⟩), dif_neg hq]

/-- Evaluating `cem` on a non-negative coupling parameter: no recursion, one
`mtu0` call with `kf = 1`. -/
theorem cem_nonneg_q (mtu0 : ℤ → ℤ → ℚ → ℚ → Status × Val × Val)
    (m q x : ℚ) (σ : ErrState)
    (h0 : 0 ≤ m) (hint : m = (⌊m⌋ : ℚ)) (hq : ¬ q < 0) :
    cem mtu0 m q x σ = mtu0Branch mtu0 "mathieu_cem" 1 ⌊m⌋ q x σ := by
  rw [cem, if_neg (by push_neg; exact ⟨h0, hint⟩), dif_neg hq]

/-- Evaluating `sem` on a non-negative coupling parameter and non-zero order: no
recursion, one `mtu0` call with `kf = 2`. -/
theorem sem_nonneg_q (mtu0 : ℤ → ℤ → ℚ → ℚ → Status × Val × Val)
    (m q x : ℚ) (σ : ErrState)
    (h0 : 0 ≤ m) (hint : m = (⌊m⌋ : ℚ)) (hm0 : ¬ ⌊m⌋ = 0) (hq : ¬ q < 0) :
    sem mtu0 m q x σ = mtu0Branch mtu0 "mathieu_sem" 2 ⌊m⌋ q x σ := by
  rw [sem, if_neg (by push_neg; exact ⟨h0, hint⟩), if_neg hm0, dif_neg hq]

/-- Evaluator `cem_cva` agrees everywhere with its non-recursive closed form. -/
theorem cem_cva_eq_closed (cva2 : ℤ → ℤ → ℚ → Val) (m q : ℚ)
    (σ : ErrState) : cem_cva cva2 m q σ = cemCvaClosed cva2 m q σ := by
  rw [cem_cva, cemCvaClosed]
  by_cases hdom : m < 0 ∨ m ≠ (⌊m⌋ : ℚ)
  · rw [if_pos hdom, if_pos hdom]
  · obtain ⟨h0, hint⟩ : 0 ≤ m ∧ m = (⌊m⌋ : ℚ) := by push_neg at hdom; exact hdom
    rw [if_neg hdom, if_neg hdom]
    by_cases hq : q < 0
    · rw [dif_pos hq, if_pos hq]
      have hq2 : ¬(-q < 0) := by linarith
      by_cases he : ⌊m⌋ % 2 = 0
      · rw [if_pos he, if_pos he, cem_cva_nonneg_q cva2 m (-q) σ h0 hint hq2,
          if_pos he]
      · rw [if_neg he, if_neg he,
          sem_cva_nonneg_q cva2 m (-q) σ
            (lt_of_lt_of_le one_pos (one_le_of_odd_order m h0 hint he)) hint hq2,
          if_neg he]
    · rw [dif_neg hq, if_neg hq]

/-- Evaluator `sem_cva` agrees everywhere with its non-recursive closed form. -/
theorem sem_cva_eq_closed (cva2 : ℤ → ℤ → ℚ → Val) (m q : ℚ)
    (σ : ErrState) : sem_cva cva2 m q σ = semCvaClosed cva2 m q σ := by
  rw [sem_cva, semCvaClosed]
  by_cases hdom : m ≤ 0 ∨ m ≠ (⌊m⌋ : ℚ)
  · rw [if_pos hdom, if_pos hdom]
  · obtain ⟨h0, hint⟩ : 0 < m ∧ m = (⌊m⌋ : ℚ) := by push_neg at hdom; exact hdom
    rw [if_neg hdom, if_neg hdom]
    by_cases hq : q < 0
    · rw [dif_pos hq, if_pos hq]
      have hq2 : ¬(-q < 0) := by linarith
      by_cases he : ⌊m⌋ % 2 = 0
      · rw [if_pos he, if_pos he,
          sem_cva_nonneg_q cva2 m (-q) σ h0 hint hq2, if_pos he]
      · rw [if_neg he, if_neg he,
          cem_cva_nonneg_q cva2 m (-q) σ (le_of_lt h0) hint hq2, if_neg he]
    · rw [dif_neg hq, if_neg hq]

/-- Evaluator `cem` agrees everywhere with its non-recursive closed form. -/
theorem cem_eq_closed (mtu0 : ℤ → ℤ → ℚ → ℚ → Status × Val × Val)
    (m q x : ℚ) (σ : ErrState) :
    cem mtu0 m q x σ = cemClosed mtu0 m q x σ := by
  rw [cem, cemClosed]
  by_cases hdom : m < 0 ∨ m ≠ (⌊m⌋ : ℚ)
  · rw [if_pos hdom, if_pos hdom]
  · obtain ⟨h0, hint⟩ : 0 ≤ m ∧ m = (⌊m⌋ : ℚ) := by push_neg at hdom; exact hdom
    rw [if_neg hdom, if_neg hdom]
    by_cases hq : q < 0
    · rw [dif_pos hq, if_pos hq]
      have hq2 : ¬(-q < 0) := by linarith
      by_cases he : ⌊m⌋ % 2 = 0
      · rw [if_pos he, if_pos he, cem_nonneg_q mtu0 m (-q) (90 - x) σ h0 hint hq2]
      · have hm0 : ¬ ⌊m⌋ = 0 := by omega
        rw [if_neg he, if_neg he,
          sem_nonneg_q mtu0 m (-q) (90 - x) σ h0 hint hm0 hq2]
    · rw [dif_neg hq, if_neg hq]

/-- Evaluator `sem` agrees everywhere with its non-recursive closed form. -/
theorem sem_eq_closed (mtu0 : ℤ → ℤ → ℚ → ℚ → Status × Val × Val)
    (m q x : ℚ) (σ : ErrState) :
    sem mtu0 m q x σ = semClosed mtu0 m q x σ := by
  rw [sem, semClosed]
  by_cases hdom : m < 0 ∨ m ≠ (⌊m⌋ : ℚ)
  · rw [if_pos hdom, if_pos hdom]
  · obtain ⟨h0, hint⟩ : 0 ≤ m ∧ m = (⌊m⌋ : ℚ) := by push_neg at hdom; exact hdom
    rw [if_neg hdom, if_neg hdom]
    by_cases hm0 : ⌊m⌋ = 0
    · rw [if_pos hm0, if_pos hm0]
    · rw [if_neg hm0, if_neg hm0]
      by_cases hq : q < 0
      · rw [dif_pos hq, if_pos hq]
        have hq2 : ¬(-q < 0) := by linarith
        by_cases he : ⌊m⌋ % 2 = 0
        · rw [if_pos he, if_pos he,
            sem_nonneg_q mtu0 m (-q) (90 - x) σ h0 hint hm0 hq2]
        · rw [if_neg he, if_neg he,
            cem_nonneg_q mtu0 m (-q) (90 - x) σ h0 hint hq2]
      · rw [dif_neg hq, if_neg hq]

/-- The result type of the abstract routine
`specfun::mtu12(kf, kc, int_m, q, x, &f1r, &d1r, &f2r, &d2r)`:
the status, the first-kind pair `(f1r, d1r)` and the second-kind pair
`(f2r, d2r)`. -/
abbrev Mtu12 := ℤ → ℤ → ℤ → ℚ → ℚ → Status × (Val × Val) × (Val × Val)

/-- Modified Mathieu function of the first kind, even: `xsf::mcm1`
from `mathieu.h` (outputs `f1r`, `d1r`; `kf = 1`, `kc = 1`). -/
def mcm1 (mtu12 : Mtu12) (m q x : ℚ) (σ : ErrState) :
    (Val × Val) × ErrState :=
  if m < 0 ∨ m ≠ (⌊m⌋ : ℚ) ∨ q < 0 then
    ((none, none), set_error "mathieu_modcem1" SfErrorKind.domain σ)
  else
    let r := mtu12 1 1 ⌊m⌋ q x
    if r.1 = Status.OK then (r.2.1, σ)
    else
      ((none, none),
        set_error "mathieu_modcem1"
          (if r.1 = Status.NoMemory then SfErrorKind.memory else SfErrorKind.other) σ)

/-- Modified Mathieu function of the first kind, odd: `xsf::msm1`
from `mathieu.h` (outputs `f1r`, `d1r`; `kf = 2`, `kc = 1`). -/
def msm1 (mtu12 : Mtu12) (m q x : ℚ) (σ : ErrState) :
    (Val × Val) × ErrState :=
  if m < 1 ∨ m ≠ (⌊m⌋ : ℚ) ∨ q < 0 then
    ((none, none), set_error "mathieu_modsem1" SfErrorKind.domain σ)
  else
    let r := mtu12 2 1 ⌊m⌋ q x
    if r.1 = Status.OK then (r.2.1, σ)
    else
      ((none, none),
        set_error "mathieu_modsem1"
          (if r.1 = Status.NoMemory then SfErrorKind.memory else SfErrorKind.other) σ)

/-- Modified Mathieu function of the second kind, even: `xsf::mcm2`
from `mathieu.h` (outputs `f2r`, `d2r`; `kf = 1`, `kc = 2`). -/
def mcm2 (mtu12 : Mtu12) (m q x : ℚ) (σ : ErrState) :
    (Val × Val) × ErrState :=
  if m < 0 ∨ m ≠ (⌊m⌋ : ℚ) ∨ q < 0 then
    ((none, none), set_error "mathieu_modcem2" SfErrorKind.domain σ)
  else
    let r := mtu12 1 2 ⌊m⌋ q x
    if r.1 = Status.OK then (r.2.2, σ)
    else
      ((none, none),
        set_error "mathieu_modcem2"
          (if r.1 = Status.NoMemory then SfErrorKind.memory else SfErrorKind.other) σ)

/-- Modified Mathieu function of the second kind, odd: `xsf::msm2`
from `mathieu.h` (outputs `f2r`, `d2r`; `kf = 2`, `kc = 2`). -/
def msm2 (mtu12 : Mtu12) (m q x : ℚ) (σ : ErrState) :
    (Val × Val) × ErrState :=
  if m < 1 ∨ m ≠ (⌊m⌋ : ℚ) ∨ q < 0 then
    ((none, none), set_error "mathieu_modsem2" SfErrorKind.domain σ)
  else
    let r := mtu12 2 2 ⌊m⌋ q x
    if r.1 = Status.OK then (r.2.2, σ)
    else
      ((none, none),
        set_error "mathieu_modsem2"
          (if r.1 = Status.NoMemory then SfErrorKind.memory else SfErrorKind.other) σ)

/-! ### Golden-table validation harness

Model of the Catch2 test harness pattern of `tests/test_hyp2f1.cpp` and
`tests/scipy_special_tests/test_chdtr.cpp`: `xsf_test_cases` generates
one reference case per row of the aligned input/output/tolerance
tables, and the `TEST_CASE` body evaluates the function under test and
`REQUIRE`s the error bound for that case.  The error metric
`extended_relative_error` (from `fp_error_metrics.h`) and the
real-signature adjustment `adjust_tolerance` (from `testing_utils.h`)
are not part of the given sources; they appear as abstract parameters
that the theorems quantify over. -/

/-- One reference case loaded from a golden table: the input tuple,
the expected output, the fallback flag carried by the output row, and
the published tolerance. -/
structure RefCase (I O : Type) where
  input : I
  desired : O
  fallback : Bool
  tol : ℚ

/-- A complex double, modelled as a pair of rationals. -/
abbrev ComplexQ := ℚ × ℚ

/-- The body of `TEST_CASE("hyp2f1 complex scipy.special cases")` for a
single generated case: evaluate `xsf::hyp2f1(a, b, c, z)`, compute the
extended relative error against the expected value, and require
`error < 2*tol`. -/
def hyp2f1CaseCheck (hyp2f1 : ℚ → ℚ → ℚ → ComplexQ → ComplexQ)
    (erec : ComplexQ → ComplexQ → ℚ)
    (tc : RefCase (ℚ × ℚ × ℚ × ComplexQ) ComplexQ) : Bool :=
  decide
    (erec (hyp2f1 tc.input.1 tc.input.2.1 tc.input.2.2.1 tc.input.2.2.2)
        tc.desired <
      2 * tc.tol)

/-- The body of `TEST_CASE("chdtr dd->d scipy_special_tests")` for a
single generated case: evaluate `xsf::chdtr(v, x)`, compute the
extended relative error, adjust the tolerance, and require
`error <= tol`. -/
def chdtrCaseCheck (chdtr : ℚ → ℚ → ℚ) (erec : ℚ → ℚ → ℚ)
    (adjust_tolerance : ℚ → ℚ) (tc : RefCase (ℚ × ℚ) ℚ) : Bool :=
  decide (erec (chdtr tc.input.1 tc.input.2) tc.desired ≤ adjust_tolerance tc.tol)

/-- The `GENERATE`-driven loop of the harness: the suite passes iff the
per-case check passes for every loaded reference case. -/
def runSuite {ι : Type} (cases : List ι) (check : ι → Bool) : Bool :=
  cases.all check

/-! ### Sign factors of the negative-`q` reflection branch -/

/-- The parity-determined sign factor `sgn` used by `cem`, and by `sem`
for odd order, in the negative-`q` reflection branch:
`sgn = ((int_m / 2) % 2 == 0) ? 1 : -1`. -/
def reflSgn (m : ℚ) : ℚ :=
  if (⌊m⌋ / 2) % 2 = 0 then 1 else -1

/-- The parity-determined sign factor `sgn` used by `sem` for even
order in the negative-`q` reflection branch:
`sgn = ((int_m / 2) % 2 == 0) ? -1 : 1`. -/
def semEvenSgn (m : ℚ) : ℚ :=
  if (⌊m⌋ / 2) % 2 = 0 then -1 else 1

/-! ### Claims -/

/-- Claim C1: for every valid order `m` (a non-negative integer for
`cem_cva`, a positive integer for `sem_cva`) and every negative
coupling parameter `q`, the characteristic-value evaluator recomputes
via the reflection identity at the negated parameter: `cem_cva(m, q)`
equals `cem_cva(m, -q)` for even `m` and `sem_cva(m, -q)` for odd `m`,
and `sem_cva(m, q)` equals `sem_cva(m, -q)` for even `m` and
`cem_cva(m, -q)` for odd `m`. -/
theorem claim_C1 (cva2 : ℤ → ℤ → ℚ → Val) (m q : ℚ) (σ : ErrState)
    (hq : q < 0) (hint : m = (⌊m⌋ : ℚ)) :
    (0 ≤ m → ⌊m⌋ % 2 = 0 → cem_cva cva2 m q σ = cem_cva cva2 m (-q) σ) ∧
    (0 ≤ m → ⌊m⌋ % 2 = 1 → cem_cva cva2 m q σ = sem_cva cva2 m (-q) σ) ∧
    (0 < m → ⌊m⌋ % 2 = 0 → sem_cva cva2 m q σ = sem_cva cva2 m (-q) σ) ∧
    (0 < m → ⌊m⌋ % 2 = 1 → sem_cva cva2 m q σ = cem_cva cva2 m (-q) σ) := by
  refine ⟨fun h0 he => ?_, fun h0 ho => ?_, fun h0 he => ?_, fun h0 ho => ?_⟩
  · rw [cem_cva, if_neg (by push_neg; exact ⟨h0, hint⟩), dif_pos hq, if_pos he]
  · rw [cem_cva, if_neg (by push_neg; exact ⟨h0, hint⟩), dif_pos hq,
      if_neg (by omega)]
  · rw [sem_cva, if_neg (by push_neg; exact ⟨h0, hint⟩), dif_pos hq, if_pos he]
  · rw [sem_cva, if_neg (by push_neg; exact ⟨h0, hint⟩), dif_pos hq,
      if_neg (by omega)]

/-- Witness for C1 at `(m, q) = (2, -1)` (even order) and
`(m, q) = (1, -1)` (odd order). -/
theorem claim_C1_witness :
    cem_cva (fun _ _ _ => none) 2 (-1) [] = cem_cva (fun _ _ _ => none) 2 1 [] ∧
    sem_cva (fun _ _ _ => none) 1 (-1) [] = cem_cva (fun _ _ _ => none) 1 1 [] := by
  constructor
  · have h :=
      (claim_C1 (fun _ _ _ => none) 2 (-1) [] (by norm_num) (by decide)).1
        (by norm_num) (by decide)
    simpa using h
  · have h :=
      (claim_C1 (fun _ _ _ => none) 1 (-1) [] (by norm_num) (by decide)).2.2.2
        (by norm_num) (by decide)
    simpa using h

/-- Claim C3: `cem_cva` signals a domain error and returns NaN for any
order that is negative or not an integer, and `sem_cva` does so for any
order that is non-positive or not an integer. -/
theorem claim_C3 (cva2 : ℤ → ℤ → ℚ → Val) (m q : ℚ) (σ : ErrState) :
    ((m < 0 ∨ m ≠ (⌊m⌋ : ℚ)) →
      cem_cva cva2 m q σ = (none, σ ++ [⟨"mathieu_a", SfErrorKind.domain⟩])) ∧
    ((m ≤ 0 ∨ m ≠ (⌊m⌋ : ℚ)) →
      sem_cva cva2 m q σ = (none, σ ++ [⟨"mathieu_b", SfErrorKind.domain⟩])) := by
  constructor
  · intro h
    rw [cem_cva, if_pos h]
    rfl
  · intro h
    rw [sem_cva, if_pos h]
    rfl

/-- Witness for C3 at `m = -1` (negative order, both evaluators). -/
theorem claim_C3_witness :
    cem_cva (fun _ _ _ => none) (-1) 5 [] =
      (none, [⟨"mathieu_a", SfErrorKind.domain⟩]) ∧
    sem_cva (fun _ _ _ => none) (-1) 5 [] =
      (none, [⟨"mathieu_b", SfErrorKind.domain⟩]) := by
  have h := claim_C3 (fun _ _ _ => none) (-1) 5 []
  exact ⟨by simpa using h.1 (by norm_num), by simpa using h.2 (by norm_num)⟩

/-- Claim C2: for every valid integer order and negative `q`, the
paired-output evaluators `cem` and `sem` apply the reflection identity
by evaluating the reflected function at `-q` and `90 - x`, setting the
value output to `sgn` times the reflected value and the derivative
output to the additionally sign-flipped `-sgn` times the reflected
derivative; the extra inversion hits only the derivative term. -/
theorem claim_C2 (mtu0 : ℤ → ℤ → ℚ → ℚ → Status × Val × Val) (m q x : ℚ)
    (σ : ErrState) (hq : q < 0) (h0 : 0 ≤ m) (hint : m = (⌊m⌋ : ℚ)) :
    (⌊m⌋ % 2 = 0 →
      cem mtu0 m q x σ =
        ((vmul (reflSgn m) (cem mtu0 m (-q) (90 - x) σ).1.1,
          vmul (-reflSgn m) (cem mtu0 m (-q) (90 - x) σ).1.2),
         (cem mtu0 m (-q) (90 - x) σ).2)) ∧
    (⌊m⌋ % 2 = 1 →
      cem mtu0 m q x σ =
        ((vmul (reflSgn m) (sem mtu0 m (-q) (90 - x) σ).1.1,
          vmul (-reflSgn m) (sem mtu0 m (-q) (90 - x) σ).1.2),
         (sem mtu0 m (-q) (90 - x) σ).2)) ∧
    (⌊m⌋ % 2 = 0 → ⌊m⌋ ≠ 0 →
      sem mtu0 m q x σ =
        ((vmul (semEvenSgn m) (sem mtu0 m (-q) (90 - x) σ).1.1,
          vmul (-semEvenSgn m) (sem mtu0 m (-q) (90 - x) σ).1.2),
         (sem mtu0 m (-q) (90 - x) σ).2)) ∧
    (⌊m⌋ % 2 = 1 →
      sem mtu0 m q x σ =
        ((vmul (reflSgn m) (cem mtu0 m (-q) (90 - x) σ).1.1,
          vmul (-reflSgn m) (cem mtu0 m (-q) (90 - x) σ).1.2),
         (cem mtu0 m (-q) (90 - x) σ).2)) := by
  refine ⟨fun he => ?_, fun ho => ?_, fun he hm0 => ?_, fun ho => ?_⟩
  · rw [cem, if_neg (by push_neg; exact ⟨h0, hint⟩), dif_pos hq, if_pos he]
    rfl
  · rw [cem, if_neg (by push_neg; exact ⟨h0, hint⟩), dif_pos hq,
      if_neg (by omega)]
    rfl
  · rw [sem, if_neg (by push_neg; exact ⟨h0, hint⟩), if_neg hm0, dif_pos hq,
      if_pos he]
    rfl
  · rw [sem, if_neg (by push_neg; exact ⟨h0, hint⟩), if_neg (by omega),
      dif_pos hq, if_neg (by omega)]
    rfl

/-- Witness for C2 at `(m, q, x) = (2, -1, 40)` (even order, `cem`) and
`(m, q, x) = (1, -1, 40)` (odd order, `sem`). -/
theorem claim_C2_witness :
    cem (fun _ _ _ _ => (Status.OK, some 5, some 7)) 2 (-1) 40 [] =
      ((vmul (reflSgn 2)
          (cem (fun _ _ _ _ => (Status.OK, some 5, some 7)) 2 (-(-1)) (90 - 40) []).1.1,
        vmul (-reflSgn 2)
          (cem (fun _ _ _ _ => (Status.OK, some 5, some 7)) 2 (-(-1)) (90 - 40) []).1.2),
       (cem (fun _ _ _ _ => (Status.OK, some 5, some 7)) 2 (-(-1)) (90 - 40) []).2) ∧
    sem (fun _ _ _ _ => (Status.OK, some 5, some 7)) 1 (-1) 40 [] =
      ((vmul (reflSgn 1)
          (cem (fun _ _ _ _ => (Status.OK, some 5, some 7)) 1 (-(-1)) (90 - 40) []).1.1,
        vmul (-reflSgn 1)
          (cem (fun _ _ _ _ => (Status.OK, some 5, some 7)) 1 (-(-1)) (90 - 40) []).1.2),
       (cem (fun _ _ _ _ => (Status.OK, some 5, some 7)) 1 (-(-1)) (90 - 40) []).2) := by
  constructor
  · exact
      (claim_C2 (fun _ _ _ _ => (Status.OK, some 5, some 7)) 2 (-1) 40 []
          (by norm_num) (by norm_num) (by decide)).1
        (by decide)
  · exact
      (claim_C2 (fun _ _ _ _ => (Status.OK, some 5, some 7)) 1 (-1) 40 []
          (by norm_num) (by norm_num) (by decide)).2.2.2
        (by decide)

/-- Claim C4: whenever the underlying routine (`mtu0` or `mtu12`)
returns a non-OK status, the calling evaluator (`cem`, `sem`, `mcm1`,
`msm1`, `mcm2`, `msm2`) sets both outputs to NaN and signals exactly
one error, classified as the memory kind for `NoMemory` and as the
generic kind for any other failing status. -/
theorem claim_C4 (mtu0 : ℤ → ℤ → ℚ → ℚ → Status × Val × Val)
    (mtu12 : Mtu12) (m q x : ℚ) (σ : ErrState)
    (h0 : 0 ≤ m) (hint : m = (⌊m⌋ : ℚ)) (hq : ¬ q < 0) :
    ((mtu0 1 ⌊m⌋ q x).1 ≠ Status.OK →
      cem mtu0 m q x σ =
        ((none, none),
          σ ++ [⟨"mathieu_cem",
            if (mtu0 1 ⌊m⌋ q x).1 = Status.NoMemory then SfErrorKind.memory
            else SfErrorKind.other⟩])) ∧
    (⌊m⌋ ≠ 0 → (mtu0 2 ⌊m⌋ q x).1 ≠ Status.OK →
      sem mtu0 m q x σ =
        ((none, none),
          σ ++ [⟨"mathieu_sem",
            if (mtu0 2 ⌊m⌋ q x).1 = Status.NoMemory then SfErrorKind.memory
            else SfErrorKind.other⟩])) ∧
    ((mtu12 1 1 ⌊m⌋ q x).1 ≠ Status.OK →
      mcm1 mtu12 m q x σ =
        ((none, none),
          σ ++ [⟨"mathieu_modcem1",
            if (mtu12 1 1 ⌊m⌋ q x).1 = Status.NoMemory then SfErrorKind.memory
            else SfErrorKind.other⟩])) ∧
    (1 ≤ m → (mtu12 2 1 ⌊m⌋ q x).1 ≠ Status.OK →
      msm1 mtu12 m q x σ =
        ((none, none),
          σ ++ [⟨"mathieu_modsem1",
            if (mtu12 2 1 ⌊m⌋ q x).1 = Status.NoMemory then SfErrorKind.memory
            else SfErrorKind.other⟩])) ∧
    ((mtu12 1 2 ⌊m⌋ q x).1 ≠ Status.OK →
      mcm2 mtu12 m q x σ =
        ((none, none),
          σ ++ [⟨"mathieu_modcem2",
            if (mtu12 1 2 ⌊m⌋ q x).1 = Status.NoMemory then SfErrorKind.memory
            else SfErrorKind.other⟩])) ∧
    (1 ≤ m → (mtu12 2 2 ⌊m⌋ q x).1 ≠ Status.OK →
      msm2 mtu12 m q x σ =
        ((none, none),
          σ ++ [⟨"mathieu_modsem2",
            if (mtu12 2 2 ⌊m⌋ q x).1 = Status.NoMemory then SfErrorKind.memory
            else SfErrorKind.other⟩])) := by
  have hq0 : 0 ≤ q := not_lt.mp hq
  refine ⟨fun hst => ?_, fun hm0 hst => ?_, fun hst => ?_, fun h1 hst => ?_,
    fun hst => ?_, fun h1 hst => ?_⟩
  · rw [cem_nonneg_q mtu0 m q x σ h0 hint hq]
    simp only [mtu0Branch]
    rw [if_neg hst]
    rfl
  · rw [sem_nonneg_q mtu0 m q x σ h0 hint hm0 hq]
    simp only [mtu0Branch]
    rw [if_neg hst]
    rfl
  · rw [mcm1, if_neg (by push_neg; exact ⟨h0, hint, hq0⟩)]
    simp only []
    rw [if_neg hst]
    rfl
  · rw [msm1, if_neg (by push_neg; exact ⟨h1, hint, hq0⟩)]
    simp only []
    rw [if_neg hst]
    rfl
  · rw [mcm2, if_neg (by push_neg; exact ⟨h0, hint, hq0⟩)]
    simp only []
    rw [if_neg hst]
    rfl
  · rw [msm2, if_neg (by push_neg; exact ⟨h1, hint, hq0⟩)]
    simp only []
    rw [if_neg hst]
    rfl

/-- Witness for C4 at `(m, q, x) = (1, 0, 3)` with a stub `mtu0` that
fails with an unclassified status and a stub `mtu12` that fails with
`NoMemory`. -/
theorem claim_C4_witness :
    cem (fun _ _ _ _ => (Status.Other, none, none)) 1 0 3 [] =
      ((none, none), [⟨"mathieu_cem", SfErrorKind.other⟩]) ∧
    sem (fun _ _ _ _ => (Status.Other, none, none)) 1 0 3 [] =
      ((none, none), [⟨"mathieu_sem", SfErrorKind.other⟩]) ∧
    mcm1 (fun _ _ _ _ _ => (Status.NoMemory, (none, none), (none, none))) 1 0 3 [] =
      ((none, none), [⟨"mathieu_modcem1", SfErrorKind.memory⟩]) ∧
    msm1 (fun _ _ _ _ _ => (Status.NoMemory, (none, none), (none, none))) 1 0 3 [] =
      ((none, none), [⟨"mathieu_modsem1", SfErrorKind.memory⟩]) ∧
    mcm2 (fun _ _ _ _ _ => (Status.NoMemory, (none, none), (none, none))) 1 0 3 [] =
      ((none, none), [⟨"mathieu_modcem2", SfErrorKind.memory⟩]) ∧
    msm2 (fun _ _ _ _ _ => (Status.NoMemory, (none, none), (none, none))) 1 0 3 [] =
      ((none, none), [⟨"mathieu_modsem2", SfErrorKind.memory⟩]) := by
  have h :=
    claim_C4 (fun _ _ _ _ => (Status.Other, none, none))
      (fun _ _ _ _ _ => (Status.NoMemory, (none, none), (none, none))) 1 0 3 []
      (by norm_num) (by decide) (by norm_num)
  refine ⟨?_, ?_, ?_, ?_, ?_, ?_⟩
  · simpa using h.1 (by decide)
  · simpa using h.2.1 (by decide) (by decide)
  · simpa using h.2.2.1 (by decide)
  · simpa using h.2.2.2.1 (by norm_num) (by decide)
  · simpa using h.2.2.2.2.1 (by decide)
  · simpa using h.2.2.2.2.2 (by norm_num) (by decide)

/-- Claim C6: every Mathieu entry point is a total function of its
arguments and error-channel state (no exception escapes: totality of
the definitions), and whenever a call writes anything to the
error-signaling side channel, every value output of that call is the
NaN sentinel — the NaN result is the authoritative failure signal. -/
theorem claim_C6 (cva2 : ℤ → ℤ → ℚ → Val)
    (mtu0 : ℤ → ℤ → ℚ → ℚ → Status × Val × Val) (mtu12 : Mtu12)
    (m q x : ℚ) (σ : ErrState) :
    ((cem_cva cva2 m q σ).2 ≠ σ → (cem_cva cva2 m q σ).1 = none) ∧
    ((sem_cva cva2 m q σ).2 ≠ σ → (sem_cva cva2 m q σ).1 = none) ∧
    ((cem mtu0 m q x σ).2 ≠ σ →
      (cem mtu0 m q x σ).1.1 = none ∧ (cem mtu0 m q x σ).1.2 = none) ∧
    ((sem mtu0 m q x σ).2 ≠ σ →
      (sem mtu0 m q x σ).1.1 = none ∧ (sem mtu0 m q x σ).1.2 = none) ∧
    ((mcm1 mtu12 m q x σ).2 ≠ σ →
      (mcm1 mtu12 m q x σ).1.1 = none ∧ (mcm1 mtu12 m q x σ).1.2 = none) ∧
    ((msm1 mtu12 m q x σ).2 ≠ σ →
      (msm1 mtu12 m q x σ).1.1 = none ∧ (msm1 mtu12 m q x σ).1.2 = none) ∧
    ((mcm2 mtu12 m q x σ).2 ≠ σ →
      (mcm2 mtu12 m q x σ).1.1 = none ∧ (mcm2 mtu12 m q x σ).1.2 = none) ∧
    ((msm2 mtu12 m q x σ).2 ≠ σ →
      (msm2 mtu12 m q x σ).1.1 = none ∧ (msm2 mtu12 m q x σ).1.2 = none) := by
  refine ⟨?_, ?_, ?_, ?_, ?_, ?_, ?_, ?_⟩
  · rw [cem_cva_eq_closed]
    simp only [cemCvaClosed, set_error]
    split_ifs <;> simp
  · rw [sem_cva_eq_closed]
    simp only [semCvaClosed, set_error]
    split_ifs <;> simp
  · rw [cem_eq_closed]
    simp only [cemClosed, mtu0Branch, set_error]
    split_ifs <;> simp [vmul]
  · rw [sem_eq_closed]
    simp only [semClosed, mtu0Branch, set_error]
    split_ifs <;> simp [vmul]
  · simp only [mcm1, set_error]
    split_ifs <;> simp
  · simp only [msm1, set_error]
    split_ifs <;> simp
  · simp only [mcm2, set_error]
    split_ifs <;> simp
  · simp only [msm2, set_error]
    split_ifs <;> simp

/-- Witness for C6 at `m = -1` (a domain error writes to the channel
and all outputs are NaN, for all eight entry points). -/
theorem claim_C6_witness :
    (cem_cva (fun _ _ _ => some 1) (-1) 1 []).1 = none ∧
    (sem_cva (fun _ _ _ => some 1) (-1) 1 []).1 = none ∧
    ((cem (fun _ _ _ _ => (Status.OK, some 1, some 1)) (-1) 1 0 []).1.1 = none ∧
      (cem (fun _ _ _ _ => (Status.OK, some 1, some 1)) (-1) 1 0 []).1.2 = none) ∧
    ((sem (fun _ _ _ _ => (Status.OK, some 1, some 1)) (-1) 1 0 []).1.1 = none ∧
      (sem (fun _ _ _ _ => (Status.OK, some 1, some 1)) (-1) 1 0 []).1.2 = none) ∧
    ((mcm1 (fun _ _ _ _ _ => (Status.OK, (some 1, some 1), (some 1, some 1)))
        (-1) 1 0 []).1.1 = none ∧
      (mcm1 (fun _ _ _ _ _ => (Status.OK, (some 1, some 1), (some 1, some 1)))
        (-1) 1 0 []).1.2 = none) ∧
    ((msm1 (fun _ _ _ _ _ => (Status.OK, (some 1, some 1), (some 1, some 1)))
        (-1) 1 0 []).1.1 = none ∧
      (msm1 (fun _ _ _ _ _ => (Status.OK, (some 1, some 1), (some 1, some 1)))
        (-1) 1 0 []).1.2 = none) ∧
    ((mcm2 (fun _ _ _ _ _ => (Status.OK, (some 1, some 1), (some 1, some 1)))
        (-1) 1 0 []).1.1 = none ∧
      (mcm2 (fun _ _ _ _ _ => (Status.OK, (some 1, some 1), (some 1, some 1)))
        (-1) 1 0 []).1.2 = none) ∧
    ((msm2 (fun _ _ _ _ _ => (Status.OK, (some 1, some 1), (some 1, some 1)))
        (-1) 1 0 []).1.1 = none ∧
      (msm2 (fun _ _ _ _ _ => (Status.OK, (some 1, some 1), (some 1, some 1)))
        (-1) 1 0 []).1.2 = none) := by
  have h :=
    claim_C6 (fun _ _ _ => some 1) (fun _ _ _ _ => (Status.OK, some 1, some 1))
      (fun _ _ _ _ _ => (Status.OK, (some 1, some 1), (some 1, some 1)))
      (-1) 1 0 []
  refine ⟨?_, ?_, ?_, ?_, ?_, ?_, ?_, ?_⟩
  · exact h.1 (by rw [cem_cva_eq_closed]; decide)
  · exact h.2.1 (by rw [sem_cva_eq_closed]; decide)
  · exact h.2.2.1 (by rw [cem_eq_closed]; decide)
  · exact h.2.2.2.1 (by rw [sem_eq_closed]; decide)
  · exact h.2.2.2.2.1 (by decide)
  · exact h.2.2.2.2.2.1 (by decide)
  · exact h.2.2.2.2.2.2.1 (by decide)
  · exact h.2.2.2.2.2.2.2 (by decide)

/-- Claim C7: the value outputs of every Mathieu entry point are
independent of the incoming error-channel state (the channel is
write-only for these evaluators), so two successive evaluations with
the same numeric inputs — the second running in the channel state left
by the first — return identical results. -/
theorem claim_C7 (cva2 : ℤ → ℤ → ℚ → Val)
    (mtu0 : ℤ → ℤ → ℚ → ℚ → Status × Val × Val) (mtu12 : Mtu12)
    (m q x : ℚ) (σ σ₁ σ₂ : ErrState) :
    ((cem_cva cva2 m q σ₁).1 = (cem_cva cva2 m q σ₂).1 ∧
      (cem_cva cva2 m q (cem_cva cva2 m q σ).2).1 = (cem_cva cva2 m q σ).1) ∧
    ((sem_cva cva2 m q σ₁).1 = (sem_cva cva2 m q σ₂).1 ∧
      (sem_cva cva2 m q (sem_cva cva2 m q σ).2).1 = (sem_cva cva2 m q σ).1) ∧
    ((cem mtu0 m q x σ₁).1 = (cem mtu0 m q x σ₂).1 ∧
      (cem mtu0 m q x (cem mtu0 m q x σ).2).1 = (cem mtu0 m q x σ).1) ∧
    ((sem mtu0 m q x σ₁).1 = (sem mtu0 m q x σ₂).1 ∧
      (sem mtu0 m q x (sem mtu0 m q x σ).2).1 = (sem mtu0 m q x σ).1) ∧
    ((mcm1 mtu12 m q x σ₁).1 = (mcm1 mtu12 m q x σ₂).1 ∧
      (mcm1 mtu12 m q x (mcm1 mtu12 m q x σ).2).1 = (mcm1 mtu12 m q x σ).1) ∧
    ((msm1 mtu12 m q x σ₁).1 = (msm1 mtu12 m q x σ₂).1 ∧
      (msm1 mtu12 m q x (msm1 mtu12 m q x σ).2).1 = (msm1 mtu12 m q x σ).1) ∧
    ((mcm2 mtu12 m q x σ₁).1 = (mcm2 mtu12 m q x σ₂).1 ∧
      (mcm2 mtu12 m q x (mcm2 mtu12 m q x σ).2).1 = (mcm2 mtu12 m q x σ).1) ∧
    ((msm2 mtu12 m q x σ₁).1 = (msm2 mtu12 m q x σ₂).1 ∧
      (msm2 mtu12 m q x (msm2 mtu12 m q x σ).2).1 = (msm2 mtu12 m q x σ).1) := by
  have h1 : ∀ τ₁ τ₂, (cem_cva cva2 m q τ₁).1 = (cem_cva cva2 m q τ₂).1 := by
    intro τ₁ τ₂
    rw [cem_cva_eq_closed, cem_cva_eq_closed]
    simp only [cemCvaClosed]
    split_ifs <;> rfl
  have h2 : ∀ τ₁ τ₂, (sem_cva cva2 m q τ₁).1 = (sem_cva cva2 m q τ₂).1 := by
    intro τ₁ τ₂
    rw [sem_cva_eq_closed, sem_cva_eq_closed]
    simp only [semCvaClosed]
    split_ifs <;> rfl
  have h3 : ∀ τ₁ τ₂, (cem mtu0 m q x τ₁).1 = (cem mtu0 m q x τ₂).1 := by
    intro τ₁ τ₂
    rw [cem_eq_closed, cem_eq_closed]
    simp only [cemClosed, mtu0Branch]
    split_ifs <;> rfl
  have h4 : ∀ τ₁ τ₂, (sem mtu0 m q x τ₁).1 = (sem mtu0 m q x τ₂).1 := by
    intro τ₁ τ₂
    rw [sem_eq_closed, sem_eq_closed]
    simp only [semClosed, mtu0Branch]
    split_ifs <;> rfl
  have h5 : ∀ τ₁ τ₂, (mcm1 mtu12 m q x τ₁).1 = (mcm1 mtu12 m q x τ₂).1 := by
    intro τ₁ τ₂
    simp only [mcm1]
    split_ifs <;> rfl
  have h6 : ∀ τ₁ τ₂, (msm1 mtu12 m q x τ₁).1 = (msm1 mtu12 m q x τ₂).1 := by
    intro τ₁ τ₂
    simp only [msm1]
    split_ifs <;> rfl
  have h7 : ∀ τ₁ τ₂, (mcm2 mtu12 m q x τ₁).1 = (mcm2 mtu12 m q x τ₂).1 := by
    intro τ₁ τ₂
    simp only [mcm2]
    split_ifs <;> rfl
  have h8 : ∀ τ₁ τ₂, (msm2 mtu12 m q x τ₁).1 = (msm2 mtu12 m q x τ₂).1 := by
    intro τ₁ τ₂
    simp only [msm2]
    split_ifs <;> rfl
  exact ⟨⟨h1 σ₁ σ₂, h1 _ σ⟩, ⟨h2 σ₁ σ₂, h2 _ σ⟩, ⟨h3 σ₁ σ₂, h3 _ σ⟩,
    ⟨h4 σ₁ σ₂, h4 _ σ⟩, ⟨h5 σ₁ σ₂, h5 _ σ⟩, ⟨h6 σ₁ σ₂, h6 _ σ⟩,
    ⟨h7 σ₁ σ₂, h7 _ σ⟩, ⟨h8 σ₁ σ₂, h8 _ σ⟩⟩

/-- Claim C8: the mutual recursion between `cem_cva` and `sem_cva` (and
between `cem` and `sem`) introduced by the negative-`q` reflection
branch terminates with recursion depth at most one: each entry point
agrees everywhere with its explicitly non-recursive closed form, so
each is a total, terminating function of its arguments. -/
theorem claim_C8 (cva2 : ℤ → ℤ → ℚ → Val)
    (mtu0 : ℤ → ℤ → ℚ → ℚ → Status × Val × Val) (m q x : ℚ)
    (σ : ErrState) :
    cem_cva cva2 m q σ = cemCvaClosed cva2 m q σ ∧
    sem_cva cva2 m q σ = semCvaClosed cva2 m q σ ∧
    cem mtu0 m q x σ = cemClosed mtu0 m q x σ ∧
    sem mtu0 m q x σ = semClosed mtu0 m q x σ :=
  ⟨cem_cva_eq_closed cva2 m q σ, sem_cva_eq_closed cva2 m q σ,
    cem_eq_closed mtu0 m q x σ, sem_eq_closed mtu0 m q x σ⟩

/-- Claim C9: for every coupling parameter `q` and argument `x`, `sem`
at order `m = 0` sets both outputs to exactly `0` and signals no error,
while `sem_cva` treats `m = 0` as a domain error and returns NaN. -/
theorem claim_C9 (mtu0 : ℤ → ℤ → ℚ → ℚ → Status × Val × Val)
    (cva2 : ℤ → ℤ → ℚ → Val) (q x : ℚ) (σ : ErrState) :
    sem mtu0 0 q x σ = ((some 0, some 0), σ) ∧
    sem_cva cva2 0 q σ = (none, σ ++ [⟨"mathieu_b", SfErrorKind.domain⟩]) := by
  constructor
  · rw [sem]
    norm_num
  · rw [sem_cva, if_pos (Or.inl le_rfl)]
    rfl

/-- Claim C10: every modified (radial) Mathieu evaluator treats a
negative coupling parameter as a domain violation — both outputs NaN
plus a domain error — and never applies the reflection identity. -/
theorem claim_C10 (mtu12 : Mtu12) (m q x : ℚ) (σ : ErrState)
    (hq : q < 0) :
    mcm1 mtu12 m q x σ =
      ((none, none), σ ++ [⟨"mathieu_modcem1", SfErrorKind.domain⟩]) ∧
    msm1 mtu12 m q x σ =
      ((none, none), σ ++ [⟨"mathieu_modsem1", SfErrorKind.domain⟩]) ∧
    mcm2 mtu12 m q x σ =
      ((none, none), σ ++ [⟨"mathieu_modcem2", SfErrorKind.domain⟩]) ∧
    msm2 mtu12 m q x σ =
      ((none, none), σ ++ [⟨"mathieu_modsem2", SfErrorKind.domain⟩]) := by
  refine ⟨?_, ?_, ?_, ?_⟩
  · rw [mcm1, if_pos (Or.inr (Or.inr hq))]
    rfl
  · rw [msm1, if_pos (Or.inr (Or.inr hq))]
    rfl
  · rw [mcm2, if_pos (Or.inr (Or.inr hq))]
    rfl
  · rw [msm2, if_pos (Or.inr (Or.inr hq))]
    rfl

/-- Witness for C10 at `(m, q, x) = (1, -1, 0)` with an all-OK stub
`mtu12`, showing the reflection identity is never consulted. -/
theorem claim_C10_witness :
    mcm1 (fun _ _ _ _ _ => (Status.OK, (some 1, some 1), (some 1, some 1)))
        1 (-1) 0 [] =
      ((none, none), [⟨"mathieu_modcem1", SfErrorKind.domain⟩]) ∧
    msm1 (fun _ _ _ _ _ => (Status.OK, (some 1, some 1), (some 1, some 1)))
        1 (-1) 0 [] =
      ((none, none), [⟨"mathieu_modsem1", SfErrorKind.domain⟩]) ∧
    mcm2 (fun _ _ _ _ _ => (Status.OK, (some 1, some 1), (some 1, some 1)))
        1 (-1) 0 [] =
      ((none, none), [⟨"mathieu_modcem2", SfErrorKind.domain⟩]) ∧
    msm2 (fun _ _ _ _ _ => (Status.OK, (some 1, some 1), (some 1, some 1)))
        1 (-1) 0 [] =
      ((none, none), [⟨"mathieu_modsem2", SfErrorKind.domain⟩]) := by
  have h :=
    claim_C10 (fun _ _ _ _ _ => (Status.OK, (some 1, some 1), (some 1, some 1)))
      1 (-1) 0 [] (by norm_num)
  exact ⟨by simpa using h.1, by simpa using h.2.1, by simpa using h.2.2.1,
    by simpa using h.2.2.2⟩

/-- Claim C5: for every reference case of a loaded golden table, the
harness invokes the function under test on the case's input tuple,
computes the extended relative error against the expected output, and
requires the error to stay within the adjusted tolerance — doubled for
the complex-valued `hyp2f1` signature (`error < 2*tol`), and passed
through `adjust_tolerance` for the real `chdtr` signature
(`error <= tol`).  The suite passes exactly when every case satisfies
its bound. -/
theorem claim_C5 (hyp2f1 : ℚ → ℚ → ℚ → ComplexQ → ComplexQ)
    (erecC : ComplexQ → ComplexQ → ℚ) (chdtr : ℚ → ℚ → ℚ)
    (erecR : ℚ → ℚ → ℚ) (adjust_tolerance : ℚ → ℚ)
    (ccases : List (RefCase (ℚ × ℚ × ℚ × ComplexQ) ComplexQ))
    (rcases : List (RefCase (ℚ × ℚ) ℚ)) :
    (runSuite ccases (hyp2f1CaseCheck hyp2f1 erecC) = true ↔
      ∀ tc ∈ ccases,
        erecC (hyp2f1 tc.input.1 tc.input.2.1 tc.input.2.2.1 tc.input.2.2.2)
            tc.desired <
          2 * tc.tol) ∧
    (runSuite rcases (chdtrCaseCheck chdtr erecR adjust_tolerance) = true ↔
      ∀ tc ∈ rcases,
        erecR (chdtr tc.input.1 tc.input.2) tc.desired ≤
          adjust_tolerance tc.tol) := by
  constructor
  · simp [runSuite, List.all_eq_true, hyp2f1CaseCheck]
  · simp [runSuite, List.all_eq_true, chdtrCaseCheck]

/-- Witness for C5 on one-case suites with stub evaluators and a stub
error metric. -/
theorem claim_C5_witness :
    runSuite [RefCase.mk ((1 : ℚ), (2 : ℚ), (3 : ℚ), ((4 : ℚ), (5 : ℚ)))
        ((0 : ℚ), (0 : ℚ)) false 1]
      (hyp2f1CaseCheck (fun _ _ _ _ => (0, 0)) (fun _ _ => 0)) = true ∧
    runSuite [RefCase.mk ((1 : ℚ), (2 : ℚ)) (0 : ℚ) false 1]
      (chdtrCaseCheck (fun _ _ => 0) (fun _ _ => 0) id) = true := by
  constructor
  · exact
      (claim_C5 (fun _ _ _ _ => (0, 0)) (fun _ _ => 0) (fun _ _ => 0)
          (fun _ _ => 0) id
          [RefCase.mk ((1 : ℚ), (2 : ℚ), (3 : ℚ), ((4 : ℚ), (5 : ℚ)))
            ((0 : ℚ), (0 : ℚ)) false 1]
          []).1.mpr
        (by
          intro tc h
          simp only [List.mem_singleton] at h
          subst h
          norm_num)
  · exact
      (claim_C5 (fun _ _ _ _ => (0, 0)) (fun _ _ => 0) (fun _ _ => 0)
          (fun _ _ => 0) id []
          [RefCase.mk ((1 : ℚ), (2 : ℚ)) (0 : ℚ) false 1]).2.mpr
        (by
          intro tc h
          simp only [List.mem_singleton] at h
          subst h
          norm_num)

/-- Witness for C7 at `(m, q, x) = (2, 1, 0)` with two distinct
incoming channel states. -/
theorem claim_C7_witness :
    (cem_cva (fun _ _ _ => some 3) 2 1 [⟨"foo", SfErrorKind.domain⟩]).1 =
      (cem_cva (fun _ _ _ => some 3) 2 1 []).1 :=
  (claim_C7 (fun _ _ _ => some 3) (fun _ _ _ _ => (Status.OK, some 1, some 1))
    (fun _ _ _ _ _ => (Status.OK, (some 1, some 1), (some 1, some 1))) 2 1 0
    [] [⟨"foo", SfErrorKind.domain⟩] []).1.1

/-- Witness for C8 at `(m, q, x) = (2, -1, 0)`. -/
theorem claim_C8_witness :
    cem_cva (fun _ _ _ => some 3) 2 (-1) [] =
      cemCvaClosed (fun _ _ _ => some 3) 2 (-1) [] :=
  (claim_C8 (fun _ _ _ => some 3) (fun _ _ _ _ => (Status.OK, some 1, some 1))
    2 (-1) 0 []).1

/-- Witness for C9 at `(q, x) = (5, 7)`. -/
theorem claim_C9_witness :
    sem (fun _ _ _ _ => (Status.OK, some 1, some 1)) 0 5 7 [] =
      ((some 0, some 0), []) ∧
    sem_cva (fun _ _ _ => some 3) 0 5 [] =
      (none, [⟨"mathieu_b", SfErrorKind.domain⟩]) := by
  have h :=
    claim_C9 (fun _ _ _ _ => (Status.OK, some 1, some 1))
      (fun _ _ _ => some 3) 5 7 []
  exact ⟨h.1, by simpa using h.2⟩

end Xsf
